import Mathlib

/-!
Verification of the normalization, hierarchical merge, and validation engine
of the language-model catalog generator.

The development shallowly embeds the two source files:
  * from_html.py  — field normalization (parse_special_field, extract_links)
                    and record extraction (multi-id fan-out in main).
  * main.py       — pydantic schema (Availability, CutOffDate, NameAndUrl,
                    LanguageModel), the metadata-tree loader
                    (parse_metadata_tree) and the conflict-checked merge walk
                    (check_metadata_tree), plus the caller (main).

Python dictionaries are modelled as association lists with unique keys;
`d1 | d2` is modelled by a union in which the right operand wins.  TOML
values are modelled by the inductive `Value`.  Machine-level concerns
(file I/O, HTML parsing, TOML serialization) are at the boundary and are
represented by explicit inputs: a `DiskNode` stands for one directory with
an optional `metadata.toml` record and a list of subdirectories.
-/

/-- A TOML-representable value as produced by normalization and read back by
`tomllib.load`: strings, booleans, integers, arrays and tables. -/
inductive Value where
  | str : String → Value
  | bool : Bool → Value
  | int : Int → Value
  | list : List Value → Value
  | table : List (String × Value) → Value

/-- A Python dict with string keys, modelled as an association list whose
keys are pairwise distinct in every record this development builds. -/
abbrev Dict := List (String × Value)

/-- `d[k]` lookup: the value of the first binding of `k`, if any. -/
def dGet (d : Dict) (k : String) : Option Value :=
  (d.find? (fun kv => kv.1 == k)).map (fun kv => kv.2)

/-- Python `k in d` on a dict. -/
def hasKey (d : Dict) (k : String) : Bool :=
  (dGet d k).isSome

/-- Python `a | b` on dicts: every key of `b` wins; keys of `a` not in `b`
keep their values.  (Key iteration order differs from CPython, but lookup
agrees on every key, which is all the modelled code observes.) -/
def dunion (a b : Dict) : Dict :=
  a.filter (fun kv => !(hasKey b kv.1)) ++ b

/-- The keys of a dict. -/
def dKeys (d : Dict) : List String :=
  d.map (fun kv => kv.1)

/-- `(set(parent_data) & set(child)) - set of the identity key`:
the non-`name` keys shared by accumulated ancestor data and a child record
(src/main.py line 123). -/
def duplicate_keys (parent_data child : Dict) : List String :=
  (dKeys parent_data).filter (fun k => hasKey child k && k != "name")

/-- Python code-point `<=` on strings (lexicographic over code points),
here on the underlying character lists. -/
def charListLe : List Char → List Char → Bool
  | [], _ => true
  | _ :: _, [] => false
  | a :: as, b :: bs =>
    if a.val.toNat < b.val.toNat then true
    else if b.val.toNat < a.val.toNat then false
    else charListLe as bs

/-- Case-sensitive ordinal `<=` on strings (Python `s1 <= s2`). -/
def strOrdLe (a b : String) : Bool :=
  charListLe a.data b.data

/-- `s1.lower() <= s2.lower()`: the comparison realized by
`sorted(..., key=lambda f: f.name.lower())` in src/main.py line 97. -/
def lowerLe (a b : String) : Bool :=
  charListLe (a.data.map Char.toLower) (b.data.map Char.toLower)

/-- Python substring containment `pat in s` on character lists: some suffix
of `s` starts with `pat`. -/
def listContainsSub (s pat : List Char) : Bool :=
  (List.range (s.length + 1)).any (fun i => pat.isPrefixOf (s.drop i))

/-- Python substring containment `pat in s` on strings. -/
def strContainsSub (s pat : String) : Bool :=
  listContainsSub s.data pat.data

/-- Python `s.lower()`, character by character.  (Python lower-cases the
full Unicode range; `Char.toLower` covers ASCII, which includes every
marker and vocabulary token the sources compare against.) -/
def pyLower (s : String) : String :=
  String.mk (s.data.map Char.toLower)

/-- Python `s.strip()`: remove leading and trailing whitespace. -/
def pyStrip (s : String) : String :=
  String.mk
    (((s.data.dropWhile Char.isWhitespace).reverse.dropWhile
        Char.isWhitespace).reverse)

/-- Worker for `pySplit`, with enough fuel to scan the whole input (the
fuel only serves to make the recursion structural; it never runs out when
started at the input's length and the separator is non-empty). -/
def pySplitGo (sep : List Char) : Nat → List Char → List Char →
    List (List Char)
  | _, [], acc => [acc.reverse]
  | 0, cs, acc => [acc.reverse ++ cs]
  | fuel + 1, c :: rest, acc =>
    if sep.isPrefixOf (c :: rest) then
      acc.reverse :: pySplitGo sep fuel ((c :: rest).drop sep.length) []
    else
      pySplitGo sep fuel rest (c :: acc)

/-- Python `s.split(sep)` for a non-empty separator: scan left to right,
cutting at each non-overlapping occurrence of `sep`. -/
def pySplit (s sep : String) : List String :=
  (pySplitGo sep.data s.data.length s.data []).map (fun cs => String.mk cs)

/-- Stable insertion of `x` into an already-sorted list: `x` goes after
every element `y` with `le y x` (in particular after elements with an equal
key), so later-processed elements land after earlier equals. -/
def pyIns (le : α → α → Bool) (x : α) : List α → List α
  | [] => [x]
  | y :: ys => if le y x then y :: pyIns le x ys else x :: y :: ys

/-- A stable sort (left-to-right insertion with `pyIns`).  Python's
`sorted` is also stable, and any two stable sorts by the same total
preorder produce the same list, so this models it exactly. -/
def pySort (le : α → α → Bool) (l : List α) : List α :=
  l.foldl (fun acc x => pyIns le x acc) []

/-! ## from_html.py — extraction and normalization -/

/-- One `<a>` element of a cell: `a.text` (may be absent) and the value of
`a.get("href")` (may be absent). -/
structure Link where
  text : Option String
  href : Option String

/-- `extract_links` (src/from_html.py lines 11-18): keep `{name, url}` for
each anchor whose stripped text is non-empty or whose href is truthy
(present and non-empty). -/
def extract_links (links : List Link) : List (String × Option String) :=
  (links.map (fun a => (pyStrip (a.text.getD ("")), a.href))).filter
    (fun it => it.1 != "" || (match it.2 with
      | some u => u != ""
      | none => false))

/-- The fixed language-variety vocabulary of src/from_html.py line 54. -/
def varietyVocab (v : String) : Option String :=
  if v = "Portugal" then some ("pt-PT")
  else if v = "Brasil" then some ("pt-BR")
  else if v = "Galiza" then some ("gl-ES")
  else none

/-- The list comprehension of src/from_html.py lines 53-56: translate the
tokens left to right, aborting at the first vocabulary miss (the Python
`KeyError`). -/
def mapVocab : List String → Option (List String)
  | [] => some []
  | v :: vs =>
    match varietyVocab v with
    | none => none
    | some c =>
      match mapVocab vs with
      | none => none
      | some cs => some (c :: cs)

/-- `parse_special_field` for `language_varieties`
(src/from_html.py lines 49-56), as a function of the stripped cell text.
A vocabulary miss is the Python `KeyError` raised by the dict lookup. -/
def parse_special_field_language_varieties (text : String) :
    Except String (Option (List String)) :=
  let varieties := pySplit text (" e ")
  if varieties = ["(?)"] || varieties = [""] then .ok none
  else
    match mapVocab varieties with
    | some codes => .ok (some codes)
    | none => .error ("KeyError")

/-- The raw availability struct built by `parse_special_field`
(src/from_html.py lines 84-88).  Python `(...) or None` makes `planned`
either `True` or `None`, never `False`. -/
structure AvailabilityRaw where
  available_now : Bool
  planned : Option Bool
  url : Option String

/-- The text the availability heuristic inspects (src/from_html.py line 83):
the first link's stripped, lower-cased text if the cell has a link, else the
lower-cased stripped cell text. -/
def availability_relevant_text (links : List Link) (text_content : String) :
    String :=
  match links with
  | a :: _ => pyLower (pyStrip (a.text.getD ("")))
  | [] => pyLower text_content

/-- `parse_special_field` for the three availability fields
(src/from_html.py lines 76-88), as a function of the cell's links and its
stripped text content. -/
def parse_special_field_availability (links : List Link)
    (text_content : String) : AvailabilityRaw :=
  let text := availability_relevant_text links text_content
  { available_now := strContainsSub text ("sim") || strContainsSub text ("paga")
    planned :=
      if strContainsSub text ("futuro") || strContainsSub text ("talvez") then
        some true
      else none
    url :=
      match links with
      | a :: _ => a.href
      | [] => none }

/-- The multi-id fan-out test and split of src/from_html.py lines 124-125:
if the normalized `model_id` value contains a comma, the comma-separated,
stripped ids; otherwise nothing. -/
def model_id_fan_out (value : String) : Option (List String) :=
  if value.data.contains (',') then
    some ((pySplit value (",")).map (fun m => pyStrip m))
  else none

/-! ## main.py — pydantic schema -/

/-- A first schema violation, as pydantic reports on `model_validate`:
an unknown key (`extra="forbid"`), a missing required field, a field of the
wrong type or failing its pattern/length/literal constraint, or a
model-validator (cross-field invariant) failure with its message. -/
inductive VErr where
  | extraField : String → VErr
  | missingField : String → VErr
  | typeError : String → VErr
  | invariant : String → VErr

/-- The pattern of `FlexibleDate` (src/main.py line 16):
`^(\d{4}(-\d{2}(-\d{2})?)?)?|(future)$`, checked by pydantic-core with
search semantics.  The top-level alternation's first branch is an optional
group anchored only at the start, so it matches the empty prefix of every
input: the constraint accepts every string. -/
def flexible_date_ok (_s : String) : Bool :=
  true

/-- `\d+` -/
def allDigits (cs : List Char) : Bool :=
  !cs.isEmpty && cs.all (fun c => c.isDigit)

/-- The pattern of `ModelSize` (src/main.py line 19):
`^(\d+(\.\d+)?[MBT])?$` — empty, or digits, an optional `.digits` part, and
a magnitude suffix `M`/`B`/`T`.  Anchored on both sides, so search semantics
coincide with a full match. -/
def model_size_ok (s : String) : Bool :=
  if s = "" then true
  else
    match s.data.reverse with
    | suffix :: rest =>
      (suffix = 'M' || suffix = 'B' || suffix = 'T') &&
        (let body := rest.reverse
         match body.splitOn ('.') with
         | [d] => allDigits d
         | [d1, d2] => allDigits d1 && allDigits d2
         | _ => false)
    | [] => false

/-- The `Availability` model's fields (src/main.py lines 22-41); `url` and
`planned` default to `None` when absent. -/
structure Availability where
  available_now : Bool
  url : Option String
  planned : Option Bool

/-- `Availability`'s two model validators (src/main.py lines 27-39), in
declaration order: `available_now` forbids a set `planned`, and requires a
truthy (present, non-empty) `url`. -/
def Availability.validate (a : Availability) : Except String Availability :=
  if a.available_now && !(a.planned == none) then
    .error ("When available_now is true, planned should not be set")
  else if a.available_now && (a.url == none || a.url == some ("")) then
    .error ("When available_now is true, url must be set")
  else .ok a

/-- The `CutOffDate` model's fields (src/main.py lines 44-61): a
`FlexibleDate` string and a `type` string to be checked against the literal
enum. -/
structure CutOffDate where
  date : String
  type : String

/-- Field-level validation of `CutOffDate.type` against
`Literal["strict", "possibly_earlier", "possibly_later", ""]`. -/
def cutOffTypeLiteral (t : String) : Bool :=
  t = "strict" || t = "possibly_earlier" || t = "possibly_later" || t = ""

/-- `CutOffDate` validation (src/main.py lines 44-61): the field-level
pattern/literal checks followed by the `validate_combination` model
validator.  The Python error messages have their empty/non-empty wording
swapped; the behavior modelled here is the one the code has. -/
def CutOffDate.validate (c : CutOffDate) : Except String CutOffDate :=
  if !(flexible_date_ok c.date) then .error ("date pattern")
  else if !(cutOffTypeLiteral c.type) then .error ("type literal")
  else if c.date = "future" then
    .error ("Cutoff date does not accept future date")
  else if c.date ≠ "" && c.type = "" then
    .error ("date set but type empty")
  else if c.date = "" && c.type ≠ "" then
    .error ("type set but date empty")
  else .ok c

/-- Run a sequence of checks, reporting the first failure (pydantic
aggregates all failures into one `ValidationError`; only whether some check
fails, and which field the first one names, is observable downstream). -/
def checkAll : List (Except VErr Unit) → Except VErr Unit
  | [] => .ok ()
  | .ok () :: rest => checkAll rest
  | .error e :: _ => .error e

/-- Closed-schema check (`extra="forbid"`): every key of `d` must be an
allowed field name. -/
def checkClosed (allowed : List String) (d : Dict) : Except VErr Unit :=
  match d.find? (fun kv => !(allowed.contains kv.1)) with
  | some kv => .error (.extraField kv.1)
  | none => .ok ()

/-- A required field of type `str`. -/
def checkStrField (d : Dict) (k : String) : Except VErr Unit :=
  match dGet d k with
  | some (.str _) => .ok ()
  | some _ => .error (.typeError k)
  | none => .error (.missingField k)

/-- A required field of type `str` with an extra constraint on the value
(pattern or minimum length). -/
def checkStrFieldSuchThat (d : Dict) (k : String) (ok : String → Bool) :
    Except VErr Unit :=
  match dGet d k with
  | some (.str s) => if ok s then .ok () else .error (.typeError k)
  | some _ => .error (.typeError k)
  | none => .error (.missingField k)

/-- The required `language_varieties` field:
`list[Literal["pt-BR", "pt-PT", "gl-ES"]]`. -/
def checkVarietiesField (d : Dict) : Except VErr Unit :=
  match dGet d "language_varieties" with
  | some (.list vs) =>
    if vs.all (fun v =>
        match v with
        | .str s => s = "pt-BR" || s = "pt-PT" || s = "gl-ES"
        | _ => false) then .ok ()
    else .error (.typeError "language_varieties")
  | some _ => .error (.typeError "language_varieties")
  | none => .error (.missingField "language_varieties")

/-- Validation of one `NameAndUrl` value (src/main.py lines 64-68): a table
with a non-empty `name`, a required `url` string, and no extra fields. -/
def nameAndUrlOk (v : Value) : Bool :=
  match v with
  | .table t =>
    (t.all (fun kv => kv.1 = "name" || kv.1 = "url")) &&
      (match dGet t "name" with
       | some (.str s) => s ≠ ""
       | _ => false) &&
      (match dGet t "url" with
       | some (.str _) => true
       | _ => false)
  | _ => false

/-- A required `list[NameAndUrl]` field. -/
def checkNameAndUrlListField (d : Dict) (k : String) : Except VErr Unit :=
  match dGet d k with
  | some (.list vs) =>
    if vs.all nameAndUrlOk then .ok () else .error (.typeError k)
  | some _ => .error (.typeError k)
  | none => .error (.missingField k)

/-- Read an optional `str | None` member out of a table. -/
def readOptStr (t : Dict) (k : String) : Except VErr (Option String) :=
  match dGet t k with
  | some (.str s) => .ok (some s)
  | some _ => .error (.typeError k)
  | none => .ok none

/-- Read an optional `bool | None` member out of a table. -/
def readOptBool (t : Dict) (k : String) : Except VErr (Option Bool) :=
  match dGet t k with
  | some (.bool b) => .ok (some b)
  | some _ => .error (.typeError k)
  | none => .ok none

/-- Build and validate an `Availability` value from a TOML table. -/
def availabilityOfValue (v : Value) : Except VErr Availability :=
  match v with
  | .table t =>
    match checkClosed ["available_now", "url", "planned"] t with
    | .error e => .error e
    | .ok () =>
      match dGet t "available_now" with
      | some (.bool b) =>
        match readOptStr t "url" with
        | .error e => .error e
        | .ok u =>
          match readOptBool t "planned" with
          | .error e => .error e
          | .ok p =>
            match Availability.validate ⟨b, u, p⟩ with
            | .ok a => .ok a
            | .error msg => .error (.invariant msg)
      | some _ => .error (.typeError "available_now")
      | none => .error (.missingField "available_now")
  | _ => .error (.typeError "availability")

/-- A required `Availability` field of the entity schema. -/
def checkAvailabilityField (d : Dict) (k : String) : Except VErr Unit :=
  match dGet d k with
  | some v =>
    match availabilityOfValue v with
    | .ok _ => .ok ()
    | .error e => .error e
  | none => .error (.missingField k)

/-- The required `knowledge_cutoff` field: a `CutOffDate` table. -/
def checkCutOffField (d : Dict) : Except VErr Unit :=
  match dGet d "knowledge_cutoff" with
  | some (.table t) =>
    match checkClosed ["date", "type"] t with
    | .error e => .error e
    | .ok () =>
      match dGet t "date", dGet t "type" with
      | some (.str da), some (.str ty) =>
        match CutOffDate.validate ⟨da, ty⟩ with
        | .ok _ => .ok ()
        | .error msg => .error (.invariant msg)
      | some (.str _), some _ => .error (.typeError "type")
      | some (.str _), none => .error (.missingField "type")
      | some _, _ => .error (.typeError "date")
      | none, _ => .error (.missingField "date")
  | some _ => .error (.typeError "knowledge_cutoff")
  | none => .error (.missingField "knowledge_cutoff")

/-- The canonical field names of `LanguageModel` (src/main.py lines 71-87). -/
def languageModelFields : List String :=
  ["name", "url", "language_varieties", "release_date", "license", "size",
   "model_id", "base_model", "origin", "training_data", "knowledge_cutoff",
   "weight_availability", "public_api_availability",
   "online_chat_availability"]

/-- `LanguageModel.model_validate` (src/main.py lines 71-87): closed schema,
every field required, with the per-field type, pattern and cross-field
checks of the pydantic models. -/
def language_model_validate (d : Dict) : Except VErr Unit :=
  checkAll
    [checkClosed languageModelFields d,
     checkStrFieldSuchThat d "name" (fun s => s ≠ ""),
     checkStrField d "url",
     checkVarietiesField d,
     checkStrFieldSuchThat d "release_date" flexible_date_ok,
     checkStrField d "license",
     checkStrFieldSuchThat d "size" model_size_ok,
     checkStrField d "model_id",
     checkStrField d "base_model",
     checkNameAndUrlListField d "origin",
     checkNameAndUrlListField d "training_data",
     checkCutOffField d,
     checkAvailabilityField d "weight_availability",
     checkAvailabilityField d "public_api_availability",
     checkAvailabilityField d "online_chat_availability"]

/-! ## main.py — metadata tree, merge walk, caller -/

/-- An in-memory metadata tree node as built by `parse_metadata_tree`: the
node's own attributes (the loaded `metadata.toml`, never containing a
`children` key) and the list under the dict's `children` key (empty when
that key is absent).  `check_metadata_tree` always strips the `children`
key before using a node as a record, so keeping it separate is faithful. -/
inductive Node where
  | mk : Dict → List Node → Node

/-- The node's own attributes. -/
def Node.attrs : Node → Dict
  | .mk a _ => a

/-- The node's children. -/
def Node.children : Node → List Node
  | .mk _ c => c

/-- How a run of `check_metadata_tree` (src/main.py lines 106-127) or of
`main` fails: the `KeyError` of the diagnostic `data['name']` print at a
leaf whose merged data has no name; the `ValueError("Missing name")`; the
`ValueError` for duplicate keys, carrying the offending keys and the
current node's `name`; a pydantic `ValidationError`; or `main`'s own
crashes on a `None` tree / a childless root (modelled as `mainCrash`). -/
inductive WalkErr where
  | keyErrorName : WalkErr
  | missingName : WalkErr
  | duplicateKeys : List String → Option Value → WalkErr
  | validation : VErr → WalkErr
  | mainCrash : WalkErr

mutual

/-- `check_metadata_tree` (src/main.py lines 106-127).  At a leaf, the merged
`data` is `parent_data | own attributes`; the diagnostic print reads
`data['name']` (a `KeyError` when absent), then the code checks `name` in
the leaf's OWN record, then validates the merged data.  At an inner node it
processes the children in order: for each child it merges, checks for
duplicate non-`name` keys between `parent_data` and the child, and recurses.
The successful result collects each leaf's merged record (the `full_model`
assignments), in visit order. -/
def check_metadata_tree : Node → Dict → Except WalkErr (List Dict)
  | .mk attrs [], parent_data =>
    let data := dunion parent_data attrs
    match dGet data "name" with
    | none => .error .keyErrorName
    | some _ =>
      if !(hasKey attrs "name") then .error .missingName
      else
        match language_model_validate data with
        | .error e => .error (.validation e)
        | .ok () => .ok [data]
  | .mk attrs (c :: cs), parent_data =>
    check_metadata_tree_children attrs parent_data (c :: cs)

/-- The `for child in children` loop of `check_metadata_tree`; `self_attrs`
is the current node's own record, used only for the duplicate-keys
diagnostic (`tree.get('name')`). -/
def check_metadata_tree_children (self_attrs parent_data : Dict) :
    List Node → Except WalkErr (List Dict)
  | [] => .ok []
  | c :: cs =>
    let p_data := dunion parent_data c.attrs
    let dup := duplicate_keys parent_data c.attrs
    if dup.isEmpty then
      match check_metadata_tree c p_data with
      | .error e => .error e
      | .ok es =>
        match check_metadata_tree_children self_attrs parent_data cs with
        | .error e => .error e
        | .ok rest => .ok (es ++ rest)
    else .error (.duplicateKeys dup (dGet self_attrs "name"))

end

/-- One directory of the on-disk forest: its name, the contents of its
`metadata.toml` if present, and its subdirectories (in arbitrary
filesystem-enumeration order). -/
inductive DiskNode where
  | mk : String → Option Dict → List DiskNode → DiskNode

/-- The directory's name. -/
def DiskNode.name : DiskNode → String
  | .mk n _ _ => n

/-- The directory's `metadata.toml` contents, if the file exists. -/
def DiskNode.record : DiskNode → Option Dict
  | .mk _ r _ => r

/-- The subdirectories. -/
def DiskNode.subdirs : DiskNode → List DiskNode
  | .mk _ _ s => s

/-- `sorted(directory.iterdir(), key=lambda f: f.name.lower())` restricted
to subdirectories (src/main.py line 97), on (name, parsed-subtree) pairs.
`pySort` is stable, like Python's sort, so the result is the same
permutation. -/
def sortChildrenPairs (l : List (String × Option Node)) :
    List (String × Option Node) :=
  pySort (fun a b => lowerLe a.1 b.1) l

mutual

/-- `parse_metadata_tree` (src/main.py lines 90-103): load the node's own
record (empty when no `metadata.toml`), recursively parse the subdirectories
in case-insensitively-sorted name order keeping the non-`None` results, and
return `None` for a node with neither attributes nor children.  (Parsing is
pure, so parsing after sorting equals sorting the parsed pairs by name with
the same stable sort.) -/
def parse_metadata_tree : DiskNode → Option Node
  | .mk _ record subs =>
    let children := (sortChildrenPairs (parse_forest subs)).filterMap
      (fun p => p.2)
    let result := record.getD []
    if result.isEmpty && children.isEmpty then none
    else some (.mk result children)

/-- The recursion of `parse_metadata_tree` over the subdirectory list,
pairing each subdirectory's name with its parsed subtree. -/
def parse_forest : List DiskNode → List (String × Option Node)
  | [] => []
  | d :: ds => (d.name, parse_metadata_tree d) :: parse_forest ds

end

/-- `main` up to the renderer hand-off (src/main.py lines 187-189): parse
the forest, run `check_metadata_tree`, and pass `tree["children"]` — with
no further sorting — to `generate_html`.  A `None` tree or a childless root
makes `main` itself crash (`AttributeError` / `KeyError`), modelled as
`mainCrash`. -/
def main_models (root : DiskNode) : Except WalkErr (List Node) :=
  match parse_metadata_tree root with
  | none => .error .mainCrash
  | some t =>
    match check_metadata_tree t [] with
    | .error e => .error e
    | .ok _ => if t.children.isEmpty then .error .mainCrash else .ok t.children

/-- The per-row record extraction of `from_html.main`
(src/from_html.py lines 111-136), given the row's directory name
(the stripped name-cell text), the normalized non-`model_id` attributes, and
the normalized `model_id` value: with a comma in `model_id`, each id becomes
a subdirectory holding only `{model_id: id}` and the base record omits
`model_id`; otherwise `model_id` stays in the base record. -/
def extract_row (name_text : String) (base : Dict) (model_id_value : String) :
    DiskNode :=
  match model_id_fan_out model_id_value with
  | some ids =>
    .mk name_text (some base)
      (ids.map (fun m => .mk m (some [("model_id", .str m)]) []))
  | none => .mk name_text (some (base ++ [("model_id", .str model_id_value)])) []

/-! ## Concrete records used by several scenarios -/

/-- An availability table that passes validation with no further
constraints: not available now, no link, nothing planned. -/
def availFalse : Value :=
  .table [("available_now", .bool false)]

/-- A complete, schema-valid attribute record except for `model_id`,
with the given `name` and `url` — the shape `from_html.main` writes for a
fanned-out row's base record. -/
def baseRecord (nm u : String) : Dict :=
  [("name", .str nm), ("url", .str u), ("language_varieties", .list []),
   ("release_date", .str ""), ("license", .str ""), ("size", .str ""),
   ("base_model", .str ""),
   ("origin", .list []), ("training_data", .list []),
   ("knowledge_cutoff", .table [("date", .str ""), ("type", .str "")]),
   ("weight_availability", availFalse),
   ("public_api_availability", availFalse),
   ("online_chat_availability", availFalse)]

/-- A complete, schema-valid attribute record. -/
def fullRecord (nm u mid : String) : Dict :=
  baseRecord nm u ++ [("model_id", .str mid)]

/-- The extracted on-disk output of a row named `Foo` with
`model_id = "a, b"`: the fan-out scenario. -/
def fanDisk : DiskNode :=
  extract_row "Foo" (baseRecord "Foo" "http://f") "a, b"

/-- A tree whose leaf has no `name` of its own but inherits one: root →
full record named `Base` (without `model_id`) → leaf `{model_id: "x"}`. -/
def c3tree : Node :=
  .mk [] [.mk (baseRecord "Base" "http://b") [.mk [("model_id", .str "x")] []]]

/-- A forest of two complete rows whose directory/record names are `B` and
`a`: lower-case-insensitively `a < b`, ordinally `B < a`. -/
def c4disk : DiskNode :=
  .mk "models" none
    [extract_row "B" (baseRecord "B" "http://b") "mB",
     extract_row "a" (baseRecord "a" "http://a") "mA"]

/-- Ancestor defines `license`; the child redefines it: the conflict
scenario. -/
def c7bad : Node :=
  .mk [] [.mk (fullRecord "Base" "http://b" "m1")
    [.mk [("license", .str "Apache-2.0")] []]]

/-- The child restates only `name` (`Variant X` over `Base`): the allowed
override scenario. -/
def c7good : Node :=
  .mk [] [.mk (fullRecord "Base" "http://b" "m1")
    [.mk [("name", .str "Variant X")] []]]

/-- A record valid in every respect except that `url` is absent. -/
def noUrlRecord : Dict :=
  (fullRecord "Foo" "http://f" "m1").filter (fun kv => kv.1 != "url")

/-! ## Helper lemmas -/

/-- Python's `pat in s` holds exactly when `s` decomposes as
`a ++ pat ++ b`. -/
theorem listContainsSub_iff (s pat : List Char) :
    listContainsSub s pat = true ↔ ∃ a b, s = a ++ pat ++ b := by
  unfold listContainsSub
  rw [List.any_eq_true]
  constructor
  · rintro ⟨i, _hi, hpre⟩
    rw [List.isPrefixOf_iff_prefix] at hpre
    obtain ⟨t, ht⟩ := hpre
    refine ⟨s.take i, t, ?_⟩
    conv_lhs => rw [← List.take_append_drop i s]
    rw [← ht, List.append_assoc]
  · rintro ⟨a, b, rfl⟩
    refine ⟨a.length, ?_, ?_⟩
    · rw [List.mem_range]
      simp
      omega
    · rw [List.isPrefixOf_iff_prefix, List.append_assoc, List.drop_left]
      exact ⟨b, rfl⟩

/-- String form of `listContainsSub_iff`. -/
theorem strContainsSub_iff (s pat : String) :
    strContainsSub s pat = true ↔ ∃ a b : String, s = a ++ pat ++ b := by
  unfold strContainsSub
  rw [listContainsSub_iff]
  constructor
  · rintro ⟨a, b, h⟩
    refine ⟨⟨a⟩, ⟨b⟩, ?_⟩
    apply String.ext
    simpa using h
  · rintro ⟨a, b, rfl⟩
    exact ⟨a.data, b.data, by simp⟩

/-- `charListLe` is total. -/
theorem charListLe_total : ∀ a b : List Char, charListLe a b || charListLe b a := by
  intro a
  induction a with
  | nil => intro b; simp [charListLe]
  | cons x xs ih =>
    intro b
    cases b with
    | nil => simp [charListLe]
    | cons y ys =>
      simp only [charListLe]
      rcases Nat.lt_trichotomy x.val.toNat y.val.toNat with h | h | h
      · simp [h]
      · simp [h, Nat.lt_irrefl, ih ys]
      · simp [h, Nat.lt_asymm h]


/-- `charListLe` is transitive. -/
theorem charListLe_trans :
    ∀ a b c : List Char, charListLe a b → charListLe b c → charListLe a c := by
  intro a
  induction a with
  | nil => intro b c _ _; simp [charListLe]
  | cons x xs ih =>
    intro b c hab hbc
    cases b with
    | nil => simp [charListLe] at hab
    | cons y ys =>
      cases c with
      | nil => simp [charListLe] at hbc
      | cons z zs =>
        simp only [charListLe] at hab hbc ⊢
        split_ifs at hab hbc ⊢ <;>
          first
            | rfl
            | omega
            | exact ih ys zs hab hbc

/-- `checkAll` succeeds exactly when every individual check does. -/
theorem checkAll_ok_iff (l : List (Except VErr Unit)) :
    checkAll l = .ok () ↔ ∀ x ∈ l, x = .ok () := by
  induction l with
  | nil => simp [checkAll]
  | cons x xs ih =>
    cases x with
    | ok u => cases u; simp [checkAll, ih]
    | error e => simp [checkAll]

/-- Mapping the variety vocabulary fails exactly when some token is outside
the vocabulary. -/
theorem mapVocab_eq_none_iff (l : List String) :
    mapVocab l = none ↔ ∃ t ∈ l, varietyVocab t = none := by
  induction l with
  | nil => simp [mapVocab]
  | cons x xs ih =>
    cases hx : varietyVocab x
    · simp [mapVocab, hx]
    · cases hxs : mapVocab xs <;> simp [mapVocab, hx, hxs] <;>
        simp [hxs] at ih <;> exact ih

/-- Membership in a `pyIns` result. -/
theorem mem_pyIns (le : α → α → Bool) (x : α) :
    ∀ (l : List α) (z : α), z ∈ pyIns le x l ↔ z = x ∨ z ∈ l := by
  intro l
  induction l with
  | nil => intro z; simp [pyIns]
  | cons y ys ih =>
    intro z
    simp only [pyIns]
    split_ifs with h
    · rw [List.mem_cons, ih]
      simp only [List.mem_cons]
      tauto
    · simp only [List.mem_cons]

/-- `pyIns` preserves sortedness for a transitive, total comparison. -/
theorem pairwise_pyIns (le : α → α → Bool)
    (htrans : ∀ a b c, le a b → le b c → le a c)
    (htotal : ∀ a b, le a b || le b a) (x : α) :
    ∀ l : List α, l.Pairwise (fun a b => le a b = true) →
      (pyIns le x l).Pairwise (fun a b => le a b = true) := by
  intro l
  induction l with
  | nil => intro _; simp [pyIns]
  | cons y ys ih =>
    intro hp
    rw [List.pairwise_cons] at hp
    obtain ⟨hy, hys⟩ := hp
    simp only [pyIns]
    split_ifs with h
    · rw [List.pairwise_cons]
      refine ⟨?_, ih hys⟩
      intro z hz
      rw [mem_pyIns] at hz
      rcases hz with rfl | hz
      · exact h
      · exact hy z hz
    · rw [List.pairwise_cons]
      have hxy : le x y = true := by
        have h2 := htotal y x
        rw [Bool.or_eq_true] at h2
        rcases h2 with h2 | h2
        · exact absurd h2 h
        · exact h2
      refine ⟨?_, List.pairwise_cons.mpr ⟨hy, hys⟩⟩
      intro z hz
      rcases List.mem_cons.mp hz with rfl | hz
      · exact hxy
      · exact htrans x y z hxy (hy z hz)

/-- `pySort` sorts, for a transitive, total comparison. -/
theorem pairwise_pySort (le : α → α → Bool)
    (htrans : ∀ a b c, le a b → le b c → le a c)
    (htotal : ∀ a b, le a b || le b a) (l : List α) :
    (pySort le l).Pairwise (fun a b => le a b = true) := by
  suffices h : ∀ (l acc : List α), acc.Pairwise (fun a b => le a b = true) →
      (l.foldl (fun acc x => pyIns le x acc) acc).Pairwise
        (fun a b => le a b = true) from h l [] (by simp)
  intro l
  induction l with
  | nil => intro acc hacc; simpa using hacc
  | cons x xs ih =>
    intro acc hacc
    simp only [List.foldl_cons]
    exact ih _ (pairwise_pyIns le htrans htotal x acc hacc)

/-! ## Claims -/

/-- Claim C1, counterexample: for the availability cell text `"sim futuro"`
(no link), which contains both the affirmative marker `sim` and the future
marker `futuro`, the code returns `available_now = true` AND
`planned = true` — not `planned = null` as the claim requires whenever
`available_now` is true. -/
theorem claim_C1_counterexample :
    strContainsSub (availability_relevant_text [] ("sim futuro")) ("sim") =
      true ∧
    strContainsSub (availability_relevant_text [] ("sim futuro")) ("futuro") =
      true ∧
    parse_special_field_availability [] ("sim futuro") =
      { available_now := true, planned := some true, url := none } :=
  ⟨rfl, rfl, rfl⟩

/-- Claim C1, amended: `planned` is true iff the lower-cased relevant text
(first link's text if a link exists, else the whole cell text) contains a
`futuro` or `talvez` marker, regardless of `available_now`; in every other
case `planned` is null (it is never false). -/
theorem claim_C1 : ∀ (links : List Link) (tc : String),
    ((parse_special_field_availability links tc).planned = some true ↔
      (∃ a b : String,
        availability_relevant_text links tc = a ++ "futuro" ++ b) ∨
      (∃ a b : String,
        availability_relevant_text links tc = a ++ "talvez" ++ b)) ∧
    ((parse_special_field_availability links tc).planned = some true ∨
      (parse_special_field_availability links tc).planned = none) := by
  intro links tc
  have hplanned : (parse_special_field_availability links tc).planned =
      if strContainsSub (availability_relevant_text links tc) ("futuro")
          || strContainsSub (availability_relevant_text links tc) ("talvez")
        then some true else none := rfl
  rw [hplanned]
  split_ifs with h
  · refine ⟨⟨fun _ => ?_, fun _ => rfl⟩, Or.inl rfl⟩
    rw [Bool.or_eq_true] at h
    rcases h with h | h
    · exact Or.inl ((strContainsSub_iff _ _).mp h)
    · exact Or.inr ((strContainsSub_iff _ _).mp h)
  · refine ⟨⟨fun hc => absurd hc (by simp), ?_⟩, Or.inr rfl⟩
    rintro (⟨a, b, hab⟩ | ⟨a, b, hab⟩) <;>
      · exfalso
        apply h
        rw [Bool.or_eq_true]
        first
          | exact Or.inl ((strContainsSub_iff _ _).mpr ⟨a, b, hab⟩)
          | exact Or.inr ((strContainsSub_iff _ _).mpr ⟨a, b, hab⟩)

/-- Claim C2, evaluated at the failing input: for `model_id = "a, b"` the
extractor does emit exactly the two child records `{model_id: "a"}` and
`{model_id: "b"}` (trimmed) with the base record omitting `model_id`, but
the merge/validate walk then fails with the missing-name error at the first
child — `check_metadata_tree` looks for `name` in the leaf's own record
(src/main.py line 115), which a fan-out child never has — so no validated
child entities result. -/
theorem claim_C2 :
    fanDisk.subdirs.map DiskNode.name = ["a", "b"] ∧
    fanDisk.subdirs.map DiskNode.record =
      [some [("model_id", .str "a")], some [("model_id", .str "b")]] ∧
    hasKey (baseRecord "Foo" "http://f") "model_id" = false ∧
    fanDisk.record = some (baseRecord "Foo" "http://f") ∧
    main_models (.mk "models" none [fanDisk]) = .error .missingName :=
  ⟨rfl, rfl, rfl, rfl, rfl⟩

/-- Claim C3, evaluated at the failing input: a leaf `{model_id: "x"}` under
a complete record named `Base` has `name` in its merged attributes, yet the
walk still raises the missing-identity error, because src/main.py line 115
checks `"name" not in tree` on the leaf's OWN record instead of the merged
`data` (which line 114 itself reads `name` from). -/
theorem claim_C3 :
    check_metadata_tree c3tree [] = .error .missingName ∧
    hasKey (dunion (baseRecord "Base" "http://b") [("model_id", .str "x")])
      "name" = true :=
  ⟨rfl, rfl⟩

/-- Claim C4, counterexample: with the two complete top-level records named
`a` and `B`, the pipeline hands the renderer the list in loader order
`[a, B]`, and that adjacent pair violates case-sensitive ordinal order
(`"a" <= "B"` is false ordinally, since `B` < `a` by code point): no final
sort by `name` is applied by the caller. -/
theorem claim_C4_counterexample :
    (main_models c4disk).map (fun ns => ns.map (fun n => dGet n.attrs "name"))
      = .ok [some (.str "a"), some (.str "B")] ∧
    strOrdLe "a" "B" = false :=
  ⟨rfl, rfl⟩

/-- Claim C4, amended: the caller applies no sort; the list handed to the
renderer is exactly the loader's child order, which is sorted
case-insensitively (by lower-cased directory name, src/main.py line 97):
every adjacent pair satisfies the lower-cased comparison, as the `[a, B]`
example shows. -/
theorem claim_C4 :
    (∀ l : List (String × Option Node),
      ((sortChildrenPairs l).map Prod.fst).Pairwise
        (fun a b => lowerLe a b = true)) ∧
    (main_models c4disk).map (fun ns => ns.map (fun n => dGet n.attrs "name"))
      = .ok [some (.str "a"), some (.str "B")] ∧
    lowerLe "a" "B" = true := by
  refine ⟨?_, rfl, rfl⟩
  intro l
  have hp := pairwise_pySort
    (fun a b : String × Option Node => lowerLe a.1 b.1)
    (fun a b c hab hbc => charListLe_trans _ _ _ hab hbc)
    (fun a b => charListLe_total _ _) l
  exact hp.map Prod.fst (fun a b hab => hab)

/-- Claim C5: an `Availability` value accepted by validation with
`available_now = true` has `planned` unset and a non-empty `url`; and any
input with `available_now` true and `planned` set, or with `available_now`
true and `url` empty or null, is rejected. -/
theorem claim_C5 : ∀ a : Availability,
    (∀ a2, Availability.validate a = .ok a2 → a.available_now = true →
      a.planned = none ∧ ∃ s, a.url = some s ∧ s ≠ "") ∧
    (a.available_now = true →
      (a.planned ≠ none ∨ a.url = none ∨ a.url = some ("")) →
      ∃ msg, Availability.validate a = .error msg) := by
  intro a
  constructor
  · intro a2 hok hnow
    simp only [Availability.validate] at hok
    split_ifs at hok with h1 h2
    simp [hnow] at h1 h2
    refine ⟨h1, ?_⟩
    cases hu : a.url with
    | none => rw [hu] at h2; simp at h2
    | some s =>
      rw [hu] at h2
      refine ⟨s, rfl, ?_⟩
      intro hs
      rw [hs] at h2
      simp at h2
  · intro hnow hviol
    simp only [Availability.validate]
    split_ifs with h1 h2
    · exact ⟨_, rfl⟩
    · exact ⟨_, rfl⟩
    · exfalso
      simp [hnow] at h1 h2
      rcases hviol with hv | hv | hv
      · exact hv h1
      · rw [hv] at h2; simp at h2
      · rw [hv] at h2; simp at h2

/-- Witness for C5: the valid input `{available_now: true, url: "http://x"}`
is accepted and satisfies the invariant, and `{available_now: true}` with no
url is rejected. -/
theorem claim_C5_witness :
    ((⟨true, some ("http://x"), none⟩ : Availability).planned = none ∧
      ∃ s, (⟨true, some ("http://x"), none⟩ : Availability).url = some s ∧
        s ≠ "") ∧
    ∃ msg, Availability.validate ⟨true, none, none⟩ = .error msg :=
  ⟨(claim_C5 ⟨true, some ("http://x"), none⟩).1 _ rfl rfl,
   (claim_C5 ⟨true, none, none⟩).2 rfl (Or.inr (Or.inl rfl))⟩

/-- Claim C6: a `CutOffDate` accepted by validation has `date` empty iff
`type` is empty, and `date` is never the literal `"future"`; inputs
violating either condition are rejected. -/
theorem claim_C6 : ∀ c : CutOffDate,
    (∀ c2, CutOffDate.validate c = .ok c2 →
      ((c.date = "") ↔ (c.type = "")) ∧ c.date ≠ "future") ∧
    ((¬((c.date = "") ↔ (c.type = "")) ∨ c.date = "future") →
      ∃ msg, CutOffDate.validate c = .error msg) := by
  intro c
  constructor
  · intro c2 hok
    simp only [CutOffDate.validate] at hok
    split_ifs at hok with h0 h1 h2 h3 h4
    simp only [Bool.and_eq_true, decide_eq_true_eq] at h3 h4
    refine ⟨⟨fun hd => ?_, fun ht => ?_⟩, h2⟩
    · by_contra ht
      exact h4 ⟨hd, ht⟩
    · by_contra hd
      exact h3 ⟨hd, ht⟩
  · intro hviol
    simp only [CutOffDate.validate]
    split_ifs with h0 h1 h2 h3 h4
    · exact ⟨_, rfl⟩
    · exact ⟨_, rfl⟩
    · exact ⟨_, rfl⟩
    · exact ⟨_, rfl⟩
    · exact ⟨_, rfl⟩
    · exfalso
      simp only [Bool.and_eq_true, decide_eq_true_eq] at h3 h4
      rcases hviol with hv | hv
      · apply hv
        refine ⟨fun hd => ?_, fun ht => ?_⟩
        · by_contra ht
          exact h4 ⟨hd, ht⟩
        · by_contra hd
          exact h3 ⟨hd, ht⟩
      · exact h2 hv

/-- Witness for C6: `{date: "2023", type: "strict"}` is accepted and
satisfies the invariant, and `{date: "future", type: "strict"}` is
rejected. -/
theorem claim_C6_witness :
    ((("2023" : String) = "" ↔ ("strict" : String) = "") ∧
      ("2023" : String) ≠ "future") ∧
    ∃ msg, CutOffDate.validate ⟨"future", "strict"⟩ = .error msg :=
  ⟨(claim_C6 ⟨"2023", "strict"⟩).1 ⟨"2023", "strict"⟩ rfl,
   (claim_C6 ⟨"future", "strict"⟩).2 (Or.inr rfl)⟩

/-- Claim C7: whenever the walk reaches a child whose own attributes share a
non-`name` key with the accumulated ancestor attributes, it fails with the
duplicate-keys error naming exactly those keys (and the current node's
name); sharing `license` at two levels fails naming `license`, while a
child that restates only `name` (`Variant X` over `Base`) merges and
validates successfully. -/
theorem claim_C7 :
    (∀ (parent_data attrs : Dict) (c : Node) (cs : List Node),
        (duplicate_keys parent_data c.attrs).isEmpty = false →
        check_metadata_tree (.mk attrs (c :: cs)) parent_data =
          .error (.duplicateKeys (duplicate_keys parent_data c.attrs)
            (dGet attrs "name"))) ∧
    check_metadata_tree c7bad [] =
      .error (.duplicateKeys ["license"] (some (.str "Base"))) ∧
    (check_metadata_tree c7good []).map
        (fun ds => ds.map (fun d => dGet d "name")) =
      .ok [some (.str "Variant X")] := by
  refine ⟨?_, rfl, rfl⟩
  intro pd attrs c cs h
  show check_metadata_tree_children attrs pd (c :: cs) = _
  rw [check_metadata_tree_children]
  simp [h]

/-- Witness for C7: the general conflict rule applied to the concrete
ancestor data `{license: "MIT"}` and child `{license: "A"}` under a node
named `P`. -/
theorem claim_C7_witness :
    check_metadata_tree
        (.mk [("name", .str "P")] [.mk [("license", .str "A")] []])
        [("license", .str "MIT")] =
      .error (.duplicateKeys ["license"] (some (.str "P"))) :=
  claim_C7.1 [("license", .str "MIT")] [("name", .str "P")]
    (.mk [("license", .str "A")] []) [] rfl

/-- Claim C8, counterexample: a merged record that satisfies every other
schema rule but lacks `url` is rejected with a missing-field violation on
`url` — `url` is a required, non-nullable field of `LanguageModel`
(src/main.py line 73), not one of the nullable fields; adding `url` back
makes the same record pass. -/
theorem claim_C8_counterexample :
    language_model_validate noUrlRecord = .error (.missingField "url") ∧
    language_model_validate (noUrlRecord ++ [("url", .str "http://f")]) =
      .ok () :=
  ⟨rfl, rfl⟩

/-- Claim C8, amended: `url` is required by validation; any record without a
`url` key fails `LanguageModel` validation. -/
theorem claim_C8 : ∀ d : Dict, dGet d "url" = none →
    language_model_validate d ≠ .ok () := by
  intro d hurl hok
  rw [language_model_validate, checkAll_ok_iff] at hok
  have h := hok (checkStrField d "url") (by simp)
  rw [checkStrField, hurl] at h
  exact absurd h (by simp)

/-- Witness for C8: the empty record has no `url` and fails validation. -/
theorem claim_C8_witness : language_model_validate [] ≠ .ok () :=
  claim_C8 [] rfl

/-- Claim C9: normalization of `language_varieties` splits the (stripped)
cell text on the literal `" e "`; a result of exactly `["(?)"]` or `[""]`
yields null; otherwise each token goes through the fixed vocabulary
Portugal→pt-PT, Brasil→pt-BR, Galiza→gl-ES, and any token outside the
vocabulary signals a data error (the `KeyError`). -/
theorem claim_C9 : ∀ text : String,
    (varietyVocab ("Portugal") = some ("pt-PT") ∧
     varietyVocab ("Brasil") = some ("pt-BR") ∧
     varietyVocab ("Galiza") = some ("gl-ES")) ∧
    ((pySplit text (" e ") = ["(?)"] ∨ pySplit text (" e ") = [""]) →
      parse_special_field_language_varieties text = .ok none) ∧
    (∀ codes, ¬(pySplit text (" e ") = ["(?)"] ∨ pySplit text (" e ") = [""]) →
      mapVocab (pySplit text (" e ")) = some codes →
      parse_special_field_language_varieties text = .ok (some codes)) ∧
    (¬(pySplit text (" e ") = ["(?)"] ∨ pySplit text (" e ") = [""]) →
      (∃ t ∈ pySplit text (" e "), varietyVocab t = none) →
      parse_special_field_language_varieties text = .error ("KeyError")) := by
  intro text
  refine ⟨⟨rfl, rfl, rfl⟩, ?_, ?_, ?_⟩
  · intro h
    rcases h with h | h <;> simp [parse_special_field_language_varieties, h]
  · intro codes hnot hmap
    rw [not_or] at hnot
    simp [parse_special_field_language_varieties, hnot.1, hnot.2, hmap]
  · intro hnot hex
    rw [not_or] at hnot
    rw [← mapVocab_eq_none_iff] at hex
    simp [parse_special_field_language_varieties, hnot.1, hnot.2, hex]

/-- Witness for C9: the placeholder `(?)` yields null, `Portugal e Brasil`
maps to `[pt-PT, pt-BR]`, and the out-of-vocabulary token `Espanha` raises
the data error. -/
theorem claim_C9_witness :
    parse_special_field_language_varieties ("(?)") = .ok none ∧
    parse_special_field_language_varieties ("Portugal e Brasil") =
      .ok (some ["pt-PT", "pt-BR"]) ∧
    parse_special_field_language_varieties ("Espanha") =
      .error ("KeyError") :=
  ⟨(claim_C9 ("(?)")).2.1 (Or.inl rfl),
   (claim_C9 ("Portugal e Brasil")).2.2.1 ["pt-PT", "pt-BR"] (by decide) rfl,
   (claim_C9 ("Espanha")).2.2.2 (by decide) ⟨"Espanha", by decide, rfl⟩⟩

/-- Claim C10: when the cell has at least one link, the availability
heuristic reads only the first link's anchor text — the whole result is
independent of the cell text and of any further links — and when that
anchor text is absent or empty the result is always
`{available_now: false, planned: null, url: the link's target}`. -/
theorem claim_C10 :
    (∀ (l : Link) (ls ls2 : List Link) (tc tc2 : String),
        parse_special_field_availability (l :: ls) tc =
          parse_special_field_availability (l :: ls2) tc2) ∧
    (∀ (h : Option String) (ls : List Link) (tc : String),
        parse_special_field_availability
            ({ text := none, href := h } :: ls) tc =
          { available_now := false, planned := none, url := h } ∧
        parse_special_field_availability
            ({ text := some (""), href := h } :: ls) tc =
          { available_now := false, planned := none, url := h }) :=
  ⟨fun _ _ _ _ _ => rfl, fun _ _ _ => ⟨rfl, rfl⟩⟩
